import Mathlib

/-!
Shallow embedding of the traffic-relay core (forward handler) and of the
hosts capability registry, together with proofs of the specified properties.

Source files embedded:
* the forward handler (`Handle`, `checkRateLimit`, `handleHTTP`);
* the hosts registry (`hostsRegistry.Get`, `hostsWrapper.Lookup`).

External collaborators (Go standard library, the core chain package) and
repository code not present in the sources at hand (the generic registry,
`xnet.Transport`, `forward.Sniffing`) are modelled abstractly; each such
definition carries a comment saying what it models.
-/

set_option autoImplicit false

namespace GostX

/-- An I/O error: either end-of-stream or some other fault (identified by a
code so that distinct faults can be told apart). Models Go `error` values
produced by reads/writes/copies, with `io.EOF` singled out as the code does. -/
inductive IOErr where
  | eof
  | fault (code : Nat)
deriving DecidableEq

/-! ## Capability registry (hosts registry)

The generic `registry` type that `hostsRegistry` embeds is code of this
repository that is not among the given sources; it is modelled from the
spec below.  `hostsGet` and `wrapperLookup` are translated from
`src/registry/hosts.go`. -/

/-- A host mapper implementation: `Lookup(network, host) -> ([]net.IP, bool)`.
IP addresses are opaque and modelled as naturals; the nil slice is `[]`. -/
structure HostMapper where
  lookup : String → String → List Nat × Bool

/-- Backing store of the registry: the sequence of registrations,
most recent first. -/
structure RegistryState where
  entries : List (String × HostMapper)

/-- Modelled from the spec: the generic capability registry's `Register`
"stores `impl` under `name`" (the duplicate-name policy is an open question
in the spec; storing the newer entry in front makes the most recent
registration the one observed by lookups). -/
def registryRegister (s : RegistryState) (name : String) (v : HostMapper) : RegistryState :=
  ⟨(name, v) :: s.entries⟩

/-- Modelled from the spec: the generic registry's lookup returns the most
recently registered implementation for a name, or nothing. -/
def registryGet (s : RegistryState) (name : String) : Option HostMapper :=
  (s.entries.find? (fun p => p.1 = name)).map (fun p => p.2)

/-- The handle returned by `hostsRegistry.Get`: it captures only the name
(and, in Go, a pointer to the registry; here the registry state is passed at
invocation time, which is exactly what makes the handle late-binding). -/
structure HostsWrapper where
  name : String
deriving DecidableEq

/-- `hostsRegistry.Get` (src/registry/hosts.go lines 17-22): a wrapper for a
nonempty name, Go `nil` (here `none`) for the empty name. -/
def hostsGet (name : String) : Option HostsWrapper :=
  if name ≠ "" then some ⟨name⟩ else none

/-- `hostsWrapper.Lookup` (src/registry/hosts.go lines 33-39): re-resolve the
name in the backing store on every call; zero result when nothing is
registered. -/
def wrapperLookup (s : RegistryState) (w : HostsWrapper) (network host : String) :
    List Nat × Bool :=
  match registryGet s w.name with
  | none => ([], false)
  | some v => v.lookup network host

/-- Claim C5: after `Register(n, A)` then `Register(n, B)`, any handle obtained
from `Get(n)` — the handle does not depend on the store at all, so obtaining it
before or after the second registration yields the same handle — forwards its
next invocation to `B`: lookups re-resolve the name on every call. -/
theorem c5_late_binding (s : RegistryState) (n : String) (A B : HostMapper)
    (network host : String) (w : HostsWrapper) (hw : hostsGet n = some w) :
    wrapperLookup (registryRegister (registryRegister s n A) n B) w network host
      = B.lookup network host := by
  by_cases hn : n = ""
  · subst hn
    simp [hostsGet] at hw
  · have hwn : w = ⟨n⟩ := by
      simp [hostsGet, hn] at hw
      exact hw.symm
    subst hwn
    simp [wrapperLookup, registryGet, registryRegister, List.find?]

/-- Witness for C5 at a concrete store and implementations. -/
theorem c5_witness :
    wrapperLookup
      (registryRegister (registryRegister ⟨[]⟩ "a" ⟨fun _ _ => ([1], true)⟩)
        "a" ⟨fun _ _ => ([2], true)⟩)
      ⟨"a"⟩ "tcp" "h" = ([2], true) :=
  (c5_late_binding ⟨[]⟩ "a" ⟨fun _ _ => ([1], true)⟩ ⟨fun _ _ => ([2], true)⟩
    "tcp" "h" ⟨"a"⟩ rfl).trans rfl

/-- Claim C6, counterexample: `Get("")` does not produce a handle at all — it
returns Go `nil` (here `none`), so there is no handle "whose operations return
the zero result"; in Go, invoking `Lookup` on the nil interface panics. -/
theorem c6_counterexample : hostsGet "" = none := rfl

/-- Claim C6, amended: `Get("")` returns nil (no handle; callers must check
for nilness, as the spec's §4.1 wording says). For every nonempty name with
nothing registered under it, `Get` returns a wrapper whose `Lookup` returns
the zero result `(nil, false)` and, being total, never panics. -/
theorem c6_amended (s : RegistryState) (n network host : String)
    (hn : n ≠ "") (hu : registryGet s n = none) :
    hostsGet "" = none ∧
    ∃ w, hostsGet n = some w ∧ wrapperLookup s w network host = ([], false) := by
  refine ⟨rfl, ⟨n⟩, ?_, ?_⟩
  · simp [hostsGet, hn]
  · simp [wrapperLookup, hu]

/-- Witness for C6 (amended) at a concrete empty store and name. -/
theorem c6_witness :
    hostsGet "" = none ∧
    ∃ w, hostsGet "a" = some w ∧ wrapperLookup ⟨[]⟩ w "tcp" "h" = ([], false) :=
  c6_amended ⟨[]⟩ "a" "tcp" "h" (by decide) rfl

/-! ## HTTP request rewriting (the handleHTTP rewrite goroutine)

`http.ReadRequest`, `http.Header` and `req.Write` are Go standard library
(external collaborators); a parsed request is modelled as a record and the
header as an association list over canonical keys.  The client-direction
reader yields a sequence of parse results (`ReadEvent`s); writes to the
target are recorded as `OutItem`s and are modelled as non-failing. -/

/-- `http.Header.Get`: first value stored under the key (keys are taken to be
already in canonical form). -/
def headerGet (h : List (String × String)) (k : String) : Option String :=
  (h.find? (fun p => p.1 = k)).map (fun p => p.2)

/-- `http.Header.Set`: replace every value stored under the key with the
single given value. -/
def headerSet (h : List (String × String)) (k v : String) : List (String × String) :=
  h.filter (fun p => p.1 ≠ k) ++ [(k, v)]

/-- A parsed HTTP request as `handleHTTP` observes it: method and URL from the
request line, the `Host` field (Go moves the Host header into `req.Host`),
the remaining headers, and an opaque body. -/
structure HttpRequest where
  method : String
  url : String
  host : String
  header : List (String × String)
  body : List Nat
deriving DecidableEq

/-- `chain.HTTPNodeSettings`: per-node HTTP rewrite settings — host override
and extra headers (a Go map, so its keys are pairwise distinct). -/
structure HTTPNodeSettings where
  host : String
  header : List (String × String)
deriving DecidableEq

/-- The rewrite applied by `handleHTTP` to one parsed request
(src/unnamed/part_000 lines 183-188): replace `req.Host` when an override is
configured, then `Set` each configured extra header. -/
def rewriteRequest (s : HTTPNodeSettings) (r : HttpRequest) : HttpRequest :=
  let r1 := if s.host ≠ "" then { r with host := s.host } else r
  { r1 with header := s.header.foldl (fun h kv => headerSet h kv.1 kv.2) r1.header }

/-- One result of `http.ReadRequest` on the client-direction reader: a parsed
request, or a read failure (EOF when the client closed). -/
inductive ReadEvent where
  | req (r : HttpRequest)
  | fail (e : IOErr)
deriving DecidableEq

/-- One item written towards the target: a (rewritten) HTTP request, or a raw
byte run produced by the post-upgrade copy. -/
inductive OutItem where
  | httpReq (r : HttpRequest)
  | raw (bs : List Nat)
deriving DecidableEq

/-- The rewrite goroutine of `handleHTTP` (src/unnamed/part_000 lines
174-212): repeatedly parse a request, rewrite it, write it to the target;
if the rewritten request carries `Upgrade: websocket`, copy the remaining
client bytes (`rest`) raw to the target — `restErr` is that copy's failure,
`none` meaning a clean finish which the code turns into `io.EOF` — and stop;
a parse failure stops the loop with that error.  Returns the items written
to the target and the error sent on the session's channel (`none` when the
event list is exhausted without a terminal event, i.e. the goroutine is
still blocked reading). -/
def rewriteTask (s : HTTPNodeSettings) (rest : List Nat) (restErr : Option IOErr) :
    List ReadEvent → List OutItem × Option IOErr
  | [] => ([], none)
  | ReadEvent.fail e :: _ => ([], some e)
  | ReadEvent.req r :: evs =>
    if headerGet (rewriteRequest s r).header "Upgrade" = some "websocket" then
      ([OutItem.httpReq (rewriteRequest s r), OutItem.raw rest],
        some (restErr.getD IOErr.eof))
    else
      (OutItem.httpReq (rewriteRequest s r) :: (rewriteTask s rest restErr evs).1,
        (rewriteTask s rest restErr evs).2)

/-! ### Header lemmas -/

theorem find?_filter_ne (h : List (String × String)) (k : String) :
    ((h.filter fun p => p.1 ≠ k).find? fun p => p.1 = k) = none := by
  induction h with
  | nil => rfl
  | cons p t ih =>
    by_cases hp : p.1 = k <;> simp [List.filter_cons, List.find?_cons, hp, ih]

theorem find?_filter_other (h : List (String × String)) (k k2 : String)
    (hne : k2 ≠ k) :
    ((h.filter fun p => p.1 ≠ k).find? fun p => p.1 = k2)
      = h.find? fun p => p.1 = k2 := by
  induction h with
  | nil => rfl
  | cons p t ih =>
    rw [List.filter_cons]
    by_cases hp : p.1 = k
    · have hq : ¬ p.1 = k2 := fun hh => hne (hh.symm.trans hp)
      rw [if_neg (by simp [hp]), List.find?_cons_of_neg _ (by simp [hq]), ih]
    · by_cases hq : p.1 = k2
      · rw [if_pos (by simp [hp]), List.find?_cons_of_pos _ (by simp [hq]),
          List.find?_cons_of_pos _ (by simp [hq])]
      · rw [if_pos (by simp [hp]), List.find?_cons_of_neg _ (by simp [hq]),
          List.find?_cons_of_neg _ (by simp [hq]), ih]

theorem find?_append_left_none (l1 l2 : List (String × String))
    (p : String × String → Bool) (h : l1.find? p = none) :
    (l1 ++ l2).find? p = l2.find? p := by
  induction l1 with
  | nil => rfl
  | cons a t ih =>
    by_cases hp : p a = true
    · rw [List.find?_cons_of_pos _ hp] at h
      cases h
    · rw [List.cons_append, List.find?_cons_of_neg _ hp]
      rw [List.find?_cons_of_neg _ hp] at h
      exact ih h

theorem find?_append_right_none (l1 l2 : List (String × String))
    (p : String × String → Bool) (h : l2.find? p = none) :
    (l1 ++ l2).find? p = l1.find? p := by
  induction l1 with
  | nil => exact h
  | cons a t ih =>
    by_cases hp : p a = true
    · rw [List.cons_append, List.find?_cons_of_pos _ hp,
        List.find?_cons_of_pos _ hp]
    · rw [List.cons_append, List.find?_cons_of_neg _ hp,
        List.find?_cons_of_neg _ hp, ih]

theorem headerGet_set_self (h : List (String × String)) (k v : String) :
    headerGet (headerSet h k v) k = some v := by
  unfold headerGet headerSet
  rw [find?_append_left_none _ _ _ (find?_filter_ne h k),
    List.find?_cons_of_pos _ (by simp)]
  rfl

theorem headerGet_set_other (h : List (String × String)) (k v k2 : String)
    (hne : k2 ≠ k) : headerGet (headerSet h k v) k2 = headerGet h k2 := by
  unfold headerGet headerSet
  have hnone : (([(k, v)] : List (String × String)).find? fun p => p.1 = k2) = none := by
    rw [List.find?_cons_of_neg _ (by simpa using fun hh => hne hh.symm)]
    rfl
  rw [find?_append_right_none _ _ _ hnone, find?_filter_other h k k2 hne]

theorem headerGet_fold_not_mem (kvs : List (String × String))
    (h : List (String × String)) (k : String) (hk : k ∉ kvs.map Prod.fst) :
    headerGet (kvs.foldl (fun acc kv => headerSet acc kv.1 kv.2) h) k
      = headerGet h k := by
  induction kvs generalizing h with
  | nil => rfl
  | cons kv t ih =>
    rw [List.map_cons] at hk
    have hk1 : k ≠ kv.1 := fun he => hk (by simp [he])
    have hk2 : k ∉ t.map Prod.fst := fun he => hk (by simp [he])
    rw [List.foldl_cons, ih _ hk2, headerGet_set_other _ _ _ _ hk1]

theorem headerGet_fold_mem (kvs : List (String × String))
    (h : List (String × String)) (k v : String)
    (hnd : (kvs.map Prod.fst).Nodup) (hm : (k, v) ∈ kvs) :
    headerGet (kvs.foldl (fun acc kv => headerSet acc kv.1 kv.2) h) k = some v := by
  induction kvs generalizing h with
  | nil => cases hm
  | cons kv t ih =>
    rw [List.map_cons, List.nodup_cons] at hnd
    rw [List.foldl_cons]
    rcases List.mem_cons.mp hm with heq | hmem
    · subst heq
      rw [headerGet_fold_not_mem t _ k (by simpa using hnd.1)]
      exact headerGet_set_self h k v
    · exact ih _ hnd.2 hmem

/-- Claim C4: for every parsed request, the rewrite replaces `Host` when an
override is configured, sets (overwriting) each configured extra header, and
leaves every other part — method, URL, body, the `Host` field absent an
override, and every header not named by the settings — unchanged; the request
the task writes to the target is exactly this rewritten request. -/
theorem c4_rewrite (s : HTTPNodeSettings) (r : HttpRequest)
    (hnd : (s.header.map Prod.fst).Nodup) :
    (s.host ≠ "" → (rewriteRequest s r).host = s.host) ∧
    (s.host = "" → (rewriteRequest s r).host = r.host) ∧
    (∀ k v, (k, v) ∈ s.header → headerGet (rewriteRequest s r).header k = some v) ∧
    (∀ k, k ∉ s.header.map Prod.fst →
        headerGet (rewriteRequest s r).header k = headerGet r.header k) ∧
    (rewriteRequest s r).method = r.method ∧
    (rewriteRequest s r).url = r.url ∧
    (rewriteRequest s r).body = r.body ∧
    (∀ rest restErr evs,
        ((rewriteTask s rest restErr (ReadEvent.req r :: evs)).1).head?
          = some (OutItem.httpReq (rewriteRequest s r))) := by
  refine ⟨?_, ?_, ?_, ?_, ?_, ?_, ?_, ?_⟩
  · intro hno
    simp [rewriteRequest, hno]
  · intro hno
    simp [rewriteRequest, hno]
  · intro k v hm
    simp only [rewriteRequest]
    exact headerGet_fold_mem s.header _ k v hnd hm
  · intro k hk
    simp only [rewriteRequest]
    rw [headerGet_fold_not_mem s.header _ k hk]
    by_cases hno : s.host = "" <;> simp [hno]
  · by_cases hno : s.host = "" <;> simp [rewriteRequest, hno]
  · by_cases hno : s.host = "" <;> simp [rewriteRequest, hno]
  · by_cases hno : s.host = "" <;> simp [rewriteRequest, hno]
  · intro rest restErr evs
    by_cases hur : headerGet (rewriteRequest s r).header "Upgrade" = some "websocket" <;>
      simp [rewriteTask, hur]

/-- Witness for C4 at the spec's example: `GET / HTTP/1.1` with `Host: old`
through settings with host override `new` and extra header `X-Forwarded: 1`. -/
theorem c4_witness :
    (rewriteRequest ⟨"new", [("X-Forwarded", "1")]⟩ ⟨"GET", "/", "old", [], []⟩).host
      = "new" ∧
    headerGet (rewriteRequest ⟨"new", [("X-Forwarded", "1")]⟩
      ⟨"GET", "/", "old", [], []⟩).header "X-Forwarded" = some "1" ∧
    (rewriteRequest ⟨"new", [("X-Forwarded", "1")]⟩
      ⟨"GET", "/", "old", [], []⟩).method = "GET" := by
  have h := c4_rewrite ⟨"new", [("X-Forwarded", "1")]⟩ ⟨"GET", "/", "old", [], []⟩
    (by decide)
  exact ⟨h.1 (by decide), h.2.2.1 "X-Forwarded" "1" (by decide), h.2.2.2.2.1⟩

/-! ### Websocket upgrade behavior of the rewrite task (claim C3) -/

/-- The item the rewrite task writes for one successfully parsed request. -/
def outOfEvent (s : HTTPNodeSettings) : ReadEvent → OutItem
  | ReadEvent.req q => OutItem.httpReq (rewriteRequest s q)
  | ReadEvent.fail _ => OutItem.raw []

/-- Claim C3, counterexample: the upgrade check runs on the request after the
configured extra headers were applied. With an extra header `Upgrade: h2c`, a
request parsed with `Upgrade: websocket` does not trigger the raw-copy switch:
the task keeps parsing — here it parses and forwards a second request — and
never emits a raw-copy run, contradicting the claim as stated. -/
theorem c3_counterexample :
    headerGet (HttpRequest.header ⟨"GET", "/", "old", [("Upgrade", "websocket")], []⟩)
        "Upgrade" = some "websocket" ∧
    rewriteTask ⟨"", [("Upgrade", "h2c")]⟩ [9, 9] none
        [ReadEvent.req ⟨"GET", "/", "old", [("Upgrade", "websocket")], []⟩,
         ReadEvent.req ⟨"POST", "/x", "old", [], [1]⟩,
         ReadEvent.fail IOErr.eof]
      = ([OutItem.httpReq ⟨"GET", "/", "old", [("Upgrade", "h2c")], []⟩,
          OutItem.httpReq ⟨"POST", "/x", "old", [("Upgrade", "h2c")], [1]⟩],
         some IOErr.eof) := by
  constructor
  · rfl
  · rfl

/-- Claim C3, amended: for every request parsed from the client direction that
carries `Upgrade: websocket` after the configured overrides are applied (as
parsed, whenever the configured extra headers do not set `Upgrade`), the
rewrite task forwards that request exactly once, then copies the remaining
client bytes raw — no later event is parsed — and exits with the raw copy's
result (EOF for a clean finish). -/
theorem c3_amended (s : HTTPNodeSettings) (rest : List Nat) (restErr : Option IOErr)
    (r : HttpRequest) (post : List ReadEvent)
    (hups : headerGet (rewriteRequest s r).header "Upgrade" = some "websocket") :
    ∀ pre : List ReadEvent,
      (∀ ev ∈ pre, ∃ q, ev = ReadEvent.req q ∧
        headerGet (rewriteRequest s q).header "Upgrade" ≠ some "websocket") →
      rewriteTask s rest restErr (pre ++ ReadEvent.req r :: post)
        = (pre.map (outOfEvent s)
            ++ [OutItem.httpReq (rewriteRequest s r), OutItem.raw rest],
           some (restErr.getD IOErr.eof)) := by
  intro pre
  induction pre with
  | nil =>
    intro _
    simp [rewriteTask, hups]
  | cons ev pre ih =>
    intro hpre
    obtain ⟨q, hq1, hq2⟩ := hpre ev (List.mem_cons_self ev pre)
    subst hq1
    have hrec := ih (fun e he => hpre e (List.mem_cons_of_mem _ he))
    rw [List.cons_append]
    simp only [rewriteTask, hq2, if_false, hrec, List.map_cons, outOfEvent,
      List.cons_append]

/-- Witness for C3 (amended): a non-upgrade request followed by a genuine
websocket upgrade; the event after the upgrade is never parsed. -/
theorem c3_witness :
    rewriteTask ⟨"", []⟩ [7] none
        [ReadEvent.req ⟨"GET", "/a", "h", [], []⟩,
         ReadEvent.req ⟨"GET", "/ws", "h", [("Upgrade", "websocket")], []⟩,
         ReadEvent.req ⟨"GET", "/never", "h", [], []⟩]
      = ([OutItem.httpReq (rewriteRequest ⟨"", []⟩ ⟨"GET", "/a", "h", [], []⟩),
          OutItem.httpReq (rewriteRequest ⟨"", []⟩
            ⟨"GET", "/ws", "h", [("Upgrade", "websocket")], []⟩),
          OutItem.raw [7]],
         some IOErr.eof) := by
  have h := c3_amended ⟨"", []⟩ [7] none
    ⟨"GET", "/ws", "h", [("Upgrade", "websocket")], []⟩
    [ReadEvent.req ⟨"GET", "/never", "h", [], []⟩] (by decide)
    [ReadEvent.req ⟨"GET", "/a", "h", [], []⟩]
    (by
      intro ev hev
      simp only [List.mem_singleton] at hev
      subst hev
      exact ⟨⟨"GET", "/a", "h", [], []⟩, rfl, by decide⟩)
  exact h.trans (by decide)

/-! ## The relay session (`Handle`)

The handler's external collaborators are modelled as follows.
* `net.SplitHostPort` / `net.JoinHostPort` (Go standard library): modelled
  for non-bracketed addresses — a split succeeds exactly when the string has
  one colon.
* `forward.Sniffing` (repository code not among the given sources) —
  modelled from the spec: it classifies the stream and returns a host, a
  protocol, and a byte-preserving reader; its outputs are session inputs
  (`sniffHost`, `sniffProtocol`, with `clientBytes` the bytes the
  byte-preserving reader replays).
* `chain.Hop.Select` and `chain.Router.Dial` (external core package):
  session inputs `hop` and `dial`.
* `xnet.Transport` and `xnet.CopyBuffer` (repository code not among the
  given sources) — modelled from the spec, see `Transport` below.
-/

/-- Result groups of splitting a string at colons. -/
def splitOnColon : List Char → List (List Char)
  | [] => [[]]
  | c :: cs =>
    if c = ':' then [] :: splitOnColon cs
    else
      match splitOnColon cs with
      | g :: gs => (c :: g) :: gs
      | [] => [[c]]

/-- Model of `net.SplitHostPort` for non-bracketed addresses: succeeds exactly
when the string contains a single colon, returning the parts on each side
(missing port and too many colons are the error cases). -/
def splitHostPort (s : String) : Option (String × String) :=
  match splitOnColon s.data with
  | [h, p] => some (⟨h⟩, ⟨p⟩)
  | _ => none

/-- Model of `net.JoinHostPort`: brackets the host when it contains a colon. -/
def joinHostPort (host port : String) : String :=
  if host.data.contains ':' then "[" ++ host ++ "]:" ++ port
  else host ++ ":" ++ port

/-- An established outbound connection (opaque). -/
structure Conn where
  id : Nat
deriving DecidableEq

/-- `chain.Node`: a destination address, an optional health marker (markers
are opaque and named by a number so that operations on them can be traced),
and optional HTTP rewrite settings (`Options().HTTP`). A node built locally
by the handler has neither marker nor settings. -/
structure Node where
  addr : String
  marker : Option Nat
  http : Option HTTPNodeSettings
deriving DecidableEq

/-- A health-marker operation performed by the session: `Marker().Mark()` on
dial failure or `Marker().Reset()` on dial success. -/
inductive MarkerOp where
  | mark (m : Nat)
  | reset (m : Nat)
deriving DecidableEq

/-- The non-nil errors `Handle` can return: `errors.New("target not
available")`, or the dial error. -/
inductive HandleError where
  | targetNotAvailable
  | dialFailed (e : IOErr)
deriving DecidableEq

/-- `forward.ProtoHTTP`. -/
def ProtoHTTP : String := "http"

/-- What the byte-transport phase did: `handleHTTP` with the target's settings
(recording its discarded return value), or the plain full-duplex copy
(recording what was delivered each way and the discarded outcome). -/
inductive RelayRun where
  | http (s : HTTPNodeSettings) (ret : Option IOErr)
  | plain (toTarget toClient : List Nat) (e : Option IOErr)
deriving DecidableEq

/-- Modelled from the spec: `xnet.Transport` performs a "plain full-duplex
byte copy between client and target until either direction reaches
end-of-stream or errors"; it delivers the client's bytes to the target and
the target's bytes to the client, with outcome `e` (`none` for clean EOF). -/
def Transport (clientBytes targetBytes : List Nat) (e : Option IOErr) : RelayRun :=
  RelayRun.plain clientBytes targetBytes e

/-- The final lines of `handleHTTP` (src/unnamed/part_000 lines 214-218):
the first value received on `errc` is normalized — `nil` and `io.EOF` to a
nil return, anything else returned as is. -/
def handleHTTPRet : Option IOErr → Option IOErr
  | none => none
  | some e => if e = IOErr.eof then none else some e

/-- One session's inputs: the accepted connection's properties, the handler's
configuration, and the responses of the external collaborators. -/
structure HandleEnv where
  /-- `h.options.RateLimiter`: `Limiter(key)`, and the limiter's `Allow`. -/
  rateLimiter : Option (String → Option (Nat → Bool))
  /-- `conn.RemoteAddr().String()`. -/
  remoteAddr : String
  /-- Whether the accepted connection is a `net.PacketConn`. -/
  isPacketConn : Bool
  /-- `h.md.sniffing`. -/
  sniffing : Bool
  /-- Modelled from the spec: the host `forward.Sniffing` extracts. -/
  sniffHost : String
  /-- Modelled from the spec: the protocol `forward.Sniffing` classifies. -/
  sniffProtocol : String
  /-- The client's bytes, as replayed by the byte-preserving reader (or read
  from the raw connection when sniffing is off). -/
  clientBytes : List Nat
  /-- The target's response bytes. -/
  targetBytes : List Nat
  /-- Modelled from the spec: the "literal destination address embedded in
  that connection's metadata". The handler code has no such input; the field
  exists only to state the spec's end-to-end claim against the code. -/
  embeddedDst : String
  /-- `h.hop`: when attached, `Select` keyed by (host, protocol). -/
  hop : Option (String → String → Option Node)
  /-- `h.router.Dial(ctx, network, address)`. -/
  dial : String → String → Except IOErr Conn
  /-- The first value received on `handleHTTP`'s `errc` channel (whichever
  of the two goroutines finishes first). -/
  firstErrc : Option IOErr
  /-- The outcome of the plain `xnet.Transport` copy. -/
  transportErr : Option IOErr

/-- `forwardHandler.checkRateLimit` (src/unnamed/part_000 lines 156-166):
no limiter configured, or no limiter for the key, grants admission; the key
is the host part of the remote address (empty when the split fails). -/
def checkRateLimit (rl : Option (String → Option (Nat → Bool)))
    (addrStr : String) : Bool :=
  match rl with
  | none => true
  | some limiterOf =>
    let host := ((splitHostPort addrStr).map Prod.fst).getD ""
    match limiterOf host with
    | none => true
    | some allow => allow 1

/-- The session's network: "udp" for packet connections, else "tcp". -/
def sessionNetwork (env : HandleEnv) : String :=
  if env.isPacketConn then "udp" else "tcp"

/-- The (host, protocol) the session works with: the sniffer's outputs when
sniffing is enabled on a stream connection, empty otherwise. -/
def sessionSniff (env : HandleEnv) : String × String :=
  if env.sniffing = true ∧ sessionNetwork env = "tcp" then
    (env.sniffHost, env.sniffProtocol)
  else ("", "")

/-- The normalized host (src/unnamed/part_000 lines 100-102): when the host
does not split as `host:port`, join it with the placeholder port "0". -/
def sessionHost (env : HandleEnv) : String :=
  if (splitHostPort (sessionSniff env).1).isSome then (sessionSniff env).1
  else joinHostPort (sessionSniff env).1 "0"

/-- The session's protocol hint. -/
def sessionProtocol (env : HandleEnv) : String :=
  (sessionSniff env).2

/-- The resolved target (src/unnamed/part_000 lines 103-116): the hop's
selection when a hop is attached (`none` = target not available), else a
locally built node holding only the normalized host. -/
def sessionTarget (env : HandleEnv) : Option Node :=
  match env.hop with
  | none => some ⟨sessionHost env, none, none⟩
  | some sel => sel (sessionHost env) (sessionProtocol env)

/-- The marker operations on dial failure: `Mark()` guarded by a nil check. -/
def markFor (t : Node) : List MarkerOp :=
  match t.marker with
  | some m => [MarkerOp.mark m]
  | none => []

/-- The marker operations on dial success: `Reset()` guarded by a nil check. -/
def resetFor (t : Node) : List MarkerOp :=
  match t.marker with
  | some m => [MarkerOp.reset m]
  | none => []

/-- The transport phase (src/unnamed/part_000 lines 142-147): HTTP-aware
relay when the protocol is HTTP and the node carries HTTP settings, else the
plain copy; either way the handler discards the result. -/
def relayFor (env : HandleEnv) (t : Node) : RelayRun :=
  match t.http with
  | some hs =>
    if sessionProtocol env = ProtoHTTP then
      RelayRun.http hs (handleHTTPRet env.firstErrc)
    else Transport env.clientBytes env.targetBytes env.transportErr
  | none => Transport env.clientBytes env.targetBytes env.transportErr

/-- What one session did: the error returned to the caller, the dial attempts
(network, address), the marker operations, and the transport phase reached
(if any). -/
structure HandleResult where
  err : Option HandleError
  dialAttempts : List (String × String)
  markerOps : List MarkerOp
  relay : Option RelayRun
deriving DecidableEq

/-- `forwardHandler.Handle` (src/unnamed/part_000 lines 65-154): rate-limit
admission (silent drop on denial), sniff + host normalization, target
resolution, a single dial (marking the node dead on failure, resetting it
alive on success), then the byte transport whose result is discarded —
the function returns nil on every path but target-unavailable and dial
failure. -/
def Handle (env : HandleEnv) : HandleResult :=
  if checkRateLimit env.rateLimiter env.remoteAddr = true then
    match sessionTarget env with
    | none => ⟨some HandleError.targetNotAvailable, [], [], none⟩
    | some t =>
      match env.dial (sessionNetwork env) t.addr with
      | Except.error e =>
        ⟨some (HandleError.dialFailed e), [(sessionNetwork env, t.addr)],
          markFor t, none⟩
      | Except.ok _ =>
        ⟨none, [(sessionNetwork env, t.addr)], resetFor t, some (relayFor env t)⟩
  else ⟨none, [], [], none⟩

/-! ## Session theorems -/

/-- Claim C7: a denied admission check ends the session immediately with a
nil error, no dial attempt and no relay; the admission key is the host part
of the remote address (port stripped); with no rate limiter configured, or
no limiter existing for the key, admission is unconditionally granted (and a
limiter that does exist decides admission by `Allow(1)`). -/
theorem c7_rate_limit (env : HandleEnv) :
    (checkRateLimit env.rateLimiter env.remoteAddr = false →
      Handle env = ⟨none, [], [], none⟩) ∧
    (env.rateLimiter = none →
      checkRateLimit env.rateLimiter env.remoteAddr = true) ∧
    (∀ f hst prt, env.rateLimiter = some f →
      splitHostPort env.remoteAddr = some (hst, prt) → f hst = none →
      checkRateLimit env.rateLimiter env.remoteAddr = true) ∧
    (∀ f hst prt allow, env.rateLimiter = some f →
      splitHostPort env.remoteAddr = some (hst, prt) → f hst = some allow →
      checkRateLimit env.rateLimiter env.remoteAddr = allow 1) := by
  refine ⟨?_, ?_, ?_, ?_⟩
  · intro h
    simp [Handle, h]
  · intro h
    simp [checkRateLimit, h]
  · intro f hst prt hf hsp hn
    simp [checkRateLimit, hf, hsp, hn]
  · intro f hst prt allow hf hsp ha
    simp [checkRateLimit, hf, hsp, ha]

/-- A session whose remote host has an exhausted limiter. -/
def envC7 : HandleEnv :=
  ⟨some (fun h => if h = "9.9.9.9" then some (fun _ => false) else none),
    "9.9.9.9:443", false, false, "", "", [], [], "", none,
    fun _ _ => Except.ok ⟨0⟩, none, none⟩

/-- Witness for C7: the denied session is silently dropped. -/
theorem c7_witness :
    checkRateLimit envC7.rateLimiter envC7.remoteAddr = false ∧
    Handle envC7 = ⟨none, [], [], none⟩ :=
  ⟨by decide, (c7_rate_limit envC7).1 (by decide)⟩

/-- Claim C8: every session makes at most one dial attempt; on dial failure
the node's marker is marked dead and the dial error is returned with no
relay (no retry); on dial success the marker is reset alive and the session
proceeds to the transport phase. -/
theorem c8_dial_marker (env : HandleEnv) (t : Node) (m : Nat)
    (hAdm : checkRateLimit env.rateLimiter env.remoteAddr = true)
    (hT : sessionTarget env = some t) (hM : t.marker = some m) :
    (∀ env2 : HandleEnv, (Handle env2).dialAttempts.length ≤ 1) ∧
    (∀ e, env.dial (sessionNetwork env) t.addr = Except.error e →
      (Handle env).err = some (HandleError.dialFailed e) ∧
      (Handle env).markerOps = [MarkerOp.mark m] ∧ (Handle env).relay = none) ∧
    (∀ c, env.dial (sessionNetwork env) t.addr = Except.ok c →
      (Handle env).err = none ∧ (Handle env).markerOps = [MarkerOp.reset m] ∧
      (Handle env).relay = some (relayFor env t)) := by
  refine ⟨?_, ?_, ?_⟩
  · intro env2
    unfold Handle
    split
    · split
      · simp
      · split <;> simp
    · simp
  · intro e hd
    simp [Handle, hAdm, hT, hd, markFor, hM]
  · intro c hd
    simp [Handle, hAdm, hT, hd, resetFor, hM]

/-- A session whose hop selects a marked node and whose dial fails. -/
def envC8 : HandleEnv :=
  ⟨none, "1.1.1.1:1", false, false, "", "", [], [], "",
    some (fun _ _ => some ⟨"n:1", some 3, none⟩),
    fun _ _ => Except.error (IOErr.fault 7), none, none⟩

/-- Witness for C8: the failed dial marks the node dead and its error is
returned. -/
theorem c8_witness :
    (Handle envC8).err = some (HandleError.dialFailed (IOErr.fault 7)) ∧
    (Handle envC8).markerOps = [MarkerOp.mark 3] ∧ (Handle envC8).relay = none :=
  (c8_dial_marker envC8 ⟨"n:1", some 3, none⟩ 3 rfl rfl rfl).2.1 (IOErr.fault 7) rfl

/-- Claim C9: with a hop attached, a selection that returns no candidate ends
the session with the target-not-available error and no dial is attempted. -/
theorem c9_select_none (env : HandleEnv) (sel : String → String → Option Node)
    (hAdm : checkRateLimit env.rateLimiter env.remoteAddr = true)
    (hh : env.hop = some sel)
    (hsel : sel (sessionHost env) (sessionProtocol env) = none) :
    (Handle env).err = some HandleError.targetNotAvailable ∧
    (Handle env).dialAttempts = [] ∧ (Handle env).relay = none := by
  have ht : sessionTarget env = none := by simp [sessionTarget, hh, hsel]
  simp [Handle, hAdm, ht]

/-- A session whose hop never finds a candidate. -/
def envC9 : HandleEnv :=
  ⟨none, "1.1.1.1:1", false, false, "", "", [], [], "",
    some (fun _ _ => none), fun _ _ => Except.ok ⟨0⟩, none, none⟩

/-- Witness for C9. -/
theorem c9_witness :
    (Handle envC9).err = some HandleError.targetNotAvailable ∧
    (Handle envC9).dialAttempts = [] ∧ (Handle envC9).relay = none :=
  c9_select_none envC9 (fun _ _ => none) rfl rfl rfl

/-- Claim C10: in direct-forward mode (no hop) the target node is built
locally from the normalized address alone and carries no marker, and the
session — a total function — performs no marker operation on any path, so
the nil-guarded `Mark()`/`Reset()` calls never dereference a missing
marker. -/
theorem c10_no_marker (env : HandleEnv) (hh : env.hop = none) :
    sessionTarget env = some ⟨sessionHost env, none, none⟩ ∧
    (Handle env).markerOps = [] := by
  have ht : sessionTarget env = some ⟨sessionHost env, none, none⟩ := by
    simp [sessionTarget, hh]
  refine ⟨ht, ?_⟩
  cases hr : checkRateLimit env.rateLimiter env.remoteAddr with
  | false => simp [Handle, hr]
  | true =>
    cases hd : env.dial (sessionNetwork env) (sessionHost env) with
    | error e => simp [Handle, hr, ht, hd, markFor]
    | ok c => simp [Handle, hr, ht, hd, resetFor]

/-- A direct-forward session. -/
def envC10 : HandleEnv :=
  ⟨none, "1.1.1.1:1", false, false, "", "", [], [], "", none,
    fun _ _ => Except.ok ⟨0⟩, none, none⟩

/-- Witness for C10. -/
theorem c10_witness :
    sessionTarget envC10 = some ⟨sessionHost envC10, none, none⟩ ∧
    (Handle envC10).markerOps = [] :=
  c10_no_marker envC10 rfl

/-- The HTTP-configured node of the C1 session. -/
def nodeC1 : Node := ⟨"t:1", some 0, some ⟨"", []⟩⟩

/-- A session that reaches HTTP-aware relay and whose transport fails with a
non-EOF fault. -/
def envC1 : HandleEnv :=
  ⟨none, "1.2.3.4:5", false, true, "example.com:80", "http", [], [], "",
    some (fun _ _ => some nodeC1), fun _ _ => Except.ok ⟨0⟩,
    some (IOErr.fault 5), none⟩

/-- Claim C1, counterexample: the transport of this session fails with the
non-EOF fault 5 (recorded in the trace as `handleHTTP`'s discarded return
value), yet `Handle` returns nil, not that error — the relay result is
dropped at the call site. -/
theorem c1_counterexample :
    (Handle envC1).relay
      = some (RelayRun.http ⟨"", []⟩ (some (IOErr.fault 5))) ∧
    (IOErr.fault 5 ≠ IOErr.eof) ∧
    (Handle envC1).err = none := by
  refine ⟨?_, by decide, ?_⟩ <;> rfl

/-- Claim C1, amended: within `handleHTTP` itself EOF (or a nil first result)
is normalized to a nil return and any other fault is returned by
`handleHTTP`; `Handle`, however, discards the transport result and returns
nil on every session that dialed successfully. -/
theorem c1_amended (env : HandleEnv) (t : Node) (c : Conn) (e : IOErr)
    (hAdm : checkRateLimit env.rateLimiter env.remoteAddr = true)
    (hT : sessionTarget env = some t)
    (hD : env.dial (sessionNetwork env) t.addr = Except.ok c) :
    handleHTTPRet (some e) = (if e = IOErr.eof then none else some e) ∧
    handleHTTPRet none = none ∧
    (Handle env).err = none := by
  refine ⟨rfl, rfl, ?_⟩
  simp [Handle, hAdm, hT, hD]

/-- Witness for C1 (amended) at the C1 session. -/
theorem c1_witness :
    handleHTTPRet (some (IOErr.fault 5))
      = (if IOErr.fault 5 = IOErr.eof then none else some (IOErr.fault 5)) ∧
    handleHTTPRet none = none ∧
    (Handle envC1).err = none :=
  c1_amended envC1 nodeC1 ⟨0⟩ (IOErr.fault 5) rfl rfl rfl

/-- A stream session with sniffing off and no hop, whose connection metadata
(in the spec's sense) names a destination. -/
def envC2 : HandleEnv :=
  ⟨none, "5.6.7.8:9", false, false, "", "", [3, 1, 4], [1, 5], "example.com:80",
    none, fun _ _ => Except.ok ⟨0⟩, none, none⟩

/-- Claim C2, counterexample: with sniffing off and no hop the handler dials
":0" — the empty sniffed host joined with the placeholder port — and not the
destination address embedded in the connection's metadata (the handler has no
such input). -/
theorem c2_counterexample :
    envC2.embeddedDst = "example.com:80" ∧
    (Handle envC2).dialAttempts = [("tcp", ":0")] ∧
    ((":0" : String) ≠ "example.com:80") := by
  refine ⟨rfl, ?_, by decide⟩
  rfl

/-- Claim C2, amended: with sniffing off and no hop on a stream connection,
the session dials ":0" (not any metadata-embedded destination); when that
dial succeeds the client's bytes are delivered byte-for-byte to the dialed
target and the responses back unmodified (per the spec-modelled `Transport`),
and the session returns a nil error. -/
theorem c2_amended (env : HandleEnv) (c : Conn)
    (hs : env.sniffing = false) (hh : env.hop = none)
    (hpk : env.isPacketConn = false)
    (hAdm : checkRateLimit env.rateLimiter env.remoteAddr = true)
    (hd : env.dial "tcp" ":0" = Except.ok c) :
    (Handle env).err = none ∧
    (Handle env).dialAttempts = [("tcp", ":0")] ∧
    (Handle env).relay
      = some (Transport env.clientBytes env.targetBytes env.transportErr) ∧
    Transport env.clientBytes env.targetBytes env.transportErr
      = RelayRun.plain env.clientBytes env.targetBytes env.transportErr := by
  have hnet : sessionNetwork env = "tcp" := by simp [sessionNetwork, hpk]
  have hsn : sessionSniff env = ("", "") := by simp [sessionSniff, hs]
  have hhost : sessionHost env = ":0" := by
    simp only [sessionHost, hsn]
    decide
  have ht : sessionTarget env = some ⟨":0", none, none⟩ := by
    simp [sessionTarget, hh, hhost]
  have hd2 : env.dial (sessionNetwork env) (":0" : String) = Except.ok c := by
    rw [hnet]
    exact hd
  refine ⟨?_, ?_, ?_, rfl⟩
  · simp [Handle, hAdm, ht, hnet, hd, hd2]
  · simp [Handle, hAdm, ht, hnet, hd, hd2]
  · simp [Handle, hAdm, ht, hnet, hd, hd2, relayFor]

/-- Witness for C2 (amended) at the C2 session. -/
theorem c2_witness :
    (Handle envC2).err = none ∧
    (Handle envC2).dialAttempts = [("tcp", ":0")] ∧
    (Handle envC2).relay
      = some (Transport envC2.clientBytes envC2.targetBytes envC2.transportErr) ∧
    Transport envC2.clientBytes envC2.targetBytes envC2.transportErr
      = RelayRun.plain envC2.clientBytes envC2.targetBytes envC2.transportErr :=
  c2_amended envC2 ⟨0⟩ rfl rfl rfl rfl rfl

end GostX
